import Mathlib

/-!
# Verification of the property-match recommender core

Shallow embedding of the scoring/explanation/selection engine of
`src/streamlit_app.py` (helpers `safe_float`, `clamp01`,
`compute_weighted_contributions`, `generate_reason`, `apply_filters`, and the
sort → search → truncate ranking steps at lines 307–315), together with proofs
of the specification's testable properties.

Python floats are modelled as `Option ℚ`: `some q` is a finite float, `none`
is NaN.  Raw table cells (which may hold strings) are modelled by `RawVal`.
-/

namespace PropMatch

/-- A Python float: `some q` is the finite value `q`, `none` is NaN.
(Infinities do not arise in the modelled code paths.) -/
abbrev PyFloat := Option ℚ

/-- A raw cell value as seen by `float(x)`:
`num q` parses to the finite number `q`; `nan` is a float NaN (note that
`float(nan)` succeeds and returns NaN, it does not raise); `unparseable s`
makes `float` raise (e.g. the string `"N/A"`). -/
inductive RawVal where
  | num (q : ℚ)
  | nan
  | unparseable (s : String)
  deriving DecidableEq

/-- `safe_float(x, default)` from the source: `try: return float(x) except:
return default`.  A finite number parses to itself, NaN parses to NaN
(no exception), an unparseable value yields the default. -/
def safe_float (x : RawVal) (d : PyFloat) : PyFloat :=
  match x with
  | .num q => some q
  | .nan => none
  | .unparseable _ => d

/-- `clamp01(x)` from the source: `x = safe_float(x, 0.0); return
float(np.clip(x, 0.0, 1.0))`.  `np.clip` propagates NaN, so a NaN input
stays NaN; an unparseable input becomes `0.0` and is then clipped. -/
def clamp01 (x : RawVal) : PyFloat :=
  (safe_float x (some 0)).map (fun q => min (max q 0) 1)

/-- Re-embed a Python float as a raw value (feeding a float back into
`float(...)`: a finite value parses to itself, NaN stays NaN). -/
def floatToRaw (x : PyFloat) : RawVal :=
  match x with
  | some q => .num q
  | none => .nan

/-- Python `==` on floats: NaN compares unequal to everything, itself
included. -/
def pyEq : PyFloat → PyFloat → Bool
  | some a, some b => a == b
  | _, _ => false

/-- Python `<=` on floats: any comparison involving NaN is false. -/
def pyLe : PyFloat → PyFloat → Bool
  | some a, some b => decide (a ≤ b)
  | _, _ => false

/-- Python `>=` on floats: any comparison involving NaN is false. -/
def pyGe (x y : PyFloat) : Bool := pyLe y x

/-- Python `>` on floats: any comparison involving NaN is false. -/
def pyGt : PyFloat → PyFloat → Bool
  | some a, some b => decide (b < a)
  | _, _ => false

/-- Multiplication of a float by a finite weight (`W[name] * v`): NaN
propagates. -/
def pyScale (w : ℚ) (x : PyFloat) : PyFloat := x.map (fun q => w * q)

/-- Python float addition: NaN propagates. -/
def pyAdd : PyFloat → PyFloat → PyFloat
  | some a, some b => some (a + b)
  | _, _ => none

/-- Python `sum` over a list of floats (starts from `0`, NaN propagates). -/
def pySum (l : List PyFloat) : PyFloat := l.foldl pyAdd (some 0)

/-! ## Similarity components and weights -/

/-- The eight similarity components, in the canonical order in which both the
`W` dict and the `parts` dict of `compute_weighted_contributions` list them. -/
inductive Comp where
  | price | bed | bath | typ | cond | year | size | loc
  deriving DecidableEq

/-- Canonical component order: insertion order of the source dicts
(price, bed, bath, type, cond, year, size, loc). -/
def canonComps : List Comp :=
  [.price, .bed, .bath, .typ, .cond, .year, .size, .loc]

/-- The fixed weight dict `W` (line 34 of the source). -/
def W : Comp → ℚ
  | .price => 30/100
  | .bed => 18/100
  | .bath => 10/100
  | .typ => 12/100
  | .cond => 8/100
  | .year => 7/100
  | .size => 7/100
  | .loc => 8/100

/-- The key under which the component appears in the `parts` dict of
`compute_weighted_contributions`. -/
def compName : Comp → String
  | .price => "price"
  | .bed => "bed"
  | .bath => "bath"
  | .typ => "type"
  | .cond => "cond"
  | .year => "year"
  | .size => "size"
  | .loc => "loc"

/-- Weight looked up by component name (inverse view of `W` on the canonical
names; `0` for a name outside the dict, which never occurs in outputs). -/
def Wname (s : String) : ℚ :=
  if s = "price" then 30/100
  else if s = "bed" then 18/100
  else if s = "bath" then 10/100
  else if s = "type" then 12/100
  else if s = "cond" then 8/100
  else if s = "year" then 7/100
  else if s = "size" then 7/100
  else if s = "loc" then 8/100
  else 0

/-- Position of a component name in the canonical order (8 for foreign
names). -/
def canonIdx (s : String) : Nat :=
  if s = "price" then 0
  else if s = "bed" then 1
  else if s = "bath" then 2
  else if s = "type" then 3
  else if s = "cond" then 4
  else if s = "year" then 5
  else if s = "size" then 6
  else if s = "loc" then 7
  else 8

/-- The human-readable label of each component, from the `mapping` dict of
`generate_reason`. -/
def compLabel : Comp → String
  | .price => "price fit"
  | .bed => "bedroom match"
  | .bath => "bathroom match"
  | .typ => "property type match"
  | .cond => "condition match"
  | .year => "modernity/year match"
  | .size => "size/spaciousness match"
  | .loc => "location intent match"

/-! ## Rows as seen by `generate_reason` / `compute_weighted_contributions`

Both functions access the row only through `row.get(key, default)` followed by
`safe_float`/`clamp01`, so they are total on raw, un-normalized rows.  A field
is `none` when the key is absent from the row. -/

/-- A (possibly raw, un-normalized) row restricted to the fields that
`generate_reason` and `compute_weighted_contributions` read. -/
structure RawRow where
  g_budget : Option RawVal := none
  s_price : Option RawVal := none
  s_bed : Option RawVal := none
  s_bath : Option RawVal := none
  s_type : Option RawVal := none
  s_cond : Option RawVal := none
  s_year : Option RawVal := none
  s_size : Option RawVal := none
  s_loc : Option RawVal := none
  deriving DecidableEq

/-- The raw cell stored under the component's `s_*` key, if present. -/
def simCell (row : RawRow) : Comp → Option RawVal
  | .price => row.s_price
  | .bed => row.s_bed
  | .bath => row.s_bath
  | .typ => row.s_type
  | .cond => row.s_cond
  | .year => row.s_year
  | .size => row.s_size
  | .loc => row.s_loc

/-- `row.get("s_…", 0.5)`: the stored cell, or the float `0.5` when the key
is missing. -/
def simEff (row : RawRow) (c : Comp) : RawVal :=
  (simCell row c).getD (.num (1/2))

/-- `clamp01(row.get("s_…", 0.5))`, the defensively clamped similarity used
by both consumers. -/
def clampSim (row : RawRow) (c : Comp) : PyFloat :=
  clamp01 (simEff row c)

/-- `safe_float(row.get("g_budget", np.nan), np.nan)`: the budget gate as a
float (NaN when missing, NaN, or unparseable). -/
def gBudgetFloat (row : RawRow) : PyFloat :=
  safe_float ((row.g_budget).getD .nan) none

/-! ## ContributionCalculator (`compute_weighted_contributions`) -/

/-- The `parts` dict, in insertion (canonical) order: pairs
`(name, W[name] * clamp01(row.get("s_name", 0.5)))`. -/
def contributionParts (row : RawRow) : List (String × PyFloat) :=
  canonComps.map (fun c => (compName c, pyScale (W c) (clampSim row c)))

/-- One step of a stable descending insertion: walk past entries strictly
greater than `x`, so equal values keep their original relative order. -/
def insertDesc (x : String × PyFloat) : List (String × PyFloat) → List (String × PyFloat)
  | [] => [x]
  | y :: ys => if pyGt y.2 x.2 then y :: insertDesc x ys else x :: y :: ys

/-- Stable descending insertion sort on the value column. -/
def insertionSortDesc : List (String × PyFloat) → List (String × PyFloat)
  | [] => []
  | x :: xs => insertDesc x (insertionSortDesc xs)

/-- `out.sort_values("weighted_contribution", ascending=False)`: pandas
`nargsort` removes the NaN entries, argsorts the rest (descending via its
reverse–stable-argsort–reverse scheme; the kernel that numpy's introsort runs
on an 8-element array is a stable insertion sort), and appends the NaN
entries at the end (`na_position="last"`) in their original order. -/
def sortContribs (l : List (String × PyFloat)) : List (String × PyFloat) :=
  insertionSortDesc (l.filter (fun p => (p.2).isSome))
    ++ l.filter (fun p => !(p.2).isSome)

/-- `compute_weighted_contributions(row)` (lines 102–115): the `parts` dict
as a list of `(component, weighted_contribution)` pairs, sorted descending by
value. -/
def compute_weighted_contributions (row : RawRow) : List (String × PyFloat) :=
  sortContribs (contributionParts row)

/-! ## ReasonGenerator (`generate_reason`) -/

/-- The budget-gate bullet (lines 124–131): emitted unless the gate is NaN. -/
def budgetClause (row : RawRow) : Option String :=
  match gBudgetFloat row with
  | none => none
  | some g =>
    if (98/100 : ℚ) ≤ g then some "within budget"
    else if (85/100 : ℚ) ≤ g then some "slightly above budget (small penalty)"
    else some "over budget (strong penalty)"

/-- Labels of components with clamped similarity `>= 0.80`, in canonical
order (lines 134–148). -/
def strongLabels (row : RawRow) : List String :=
  (canonComps.filter (fun c => pyGe (clampSim row c) (some (80/100)))).map compLabel

/-- The strong-components bullet (lines 150–151). -/
def strongClause (row : RawRow) : Option String :=
  if strongLabels row = [] then none
  else some ("strong on: " ++ String.intercalate ", " ((strongLabels row).take 3))

/-- Labels of components with clamped similarity `<= 0.35`, in canonical
order (lines 154–158). -/
def weakLabels (row : RawRow) : List String :=
  (canonComps.filter (fun c => pyLe (clampSim row c) (some (35/100)))).map compLabel

/-- The `bullets` list of `generate_reason`: budget bullet, then strong
bullet, then — only if fewer than 2 bullets exist so far and some weak
component exists — the trade-offs bullet (lines 121–160). -/
def bullets (row : RawRow) : List String :=
  let bs := (budgetClause row).toList ++ (strongClause row).toList
  if weakLabels row ≠ [] ∧ bs.length < 2 then
    bs ++ ["trade-offs: " ++ String.intercalate ", " ((weakLabels row).take 2)]
  else bs

/-- Python `str.capitalize`: first character uppercased, the rest
lowercased. -/
def pyCapitalize (s : String) : String :=
  match s.data with
  | [] => ""
  | c :: cs => String.mk (c.toUpper :: cs.map Char.toLower)

/-- `generate_reason(row)` (lines 117–164). -/
def generate_reason (row : RawRow) : String :=
  if bullets row = [] then "Balanced match across constraints and preferences."
  else pyCapitalize (String.intercalate " • " (bullets row)) ++ "."

/-! ## FilterEngine (`apply_filters`)

A normalized table row: after `ensure_columns`, the numeric columns hold
floats (possibly NaN) and the categorical/identifier columns hold strings. -/

/-- A normalized record as `apply_filters` and the ranking steps see it. -/
structure MatchRecord where
  userId : String := "1"
  propertyId : String := "1"
  location : String := "Unknown"
  ptype : String := "Unknown"
  condition : String := "Unknown"
  bedrooms : PyFloat := none
  bathrooms : PyFloat := none
  size : PyFloat := none
  yearBuilt : PyFloat := none
  price : PyFloat := none
  matchScore : PyFloat := none
  g_budget : PyFloat := none
  deriving DecidableEq

/-- The arguments of `apply_filters` (lines 166–169): multiselect lists
(an empty list means no restriction, via Python truthiness), optional
inclusive ranges, and the two always-applied minimum thresholds. -/
structure FilterCriteria where
  locFilter : List String := []
  typeFilter : List String := []
  condFilter : List String := []
  priceRange : Option (ℚ × ℚ) := none
  sizeRange : Option (ℚ × ℚ) := none
  minScore : ℚ := 0
  minBudgetGate : ℚ := 0
  deriving DecidableEq

/-- `apply_filters` (lines 166–188): categorical membership filters (skipped
when the list is empty), inclusive price/size range filters (skipped when the
range is `None`), then the unconditional `MatchScore >= min_score` and
`g_budget >= min_budget_gate` filters.  All comparisons use float semantics,
so NaN fails every predicate. -/
def apply_filters (df : List MatchRecord) (c : FilterCriteria) : List MatchRecord :=
  let out := df
  let out := if c.locFilter = [] then out
    else out.filter (fun r => c.locFilter.contains r.location)
  let out := if c.typeFilter = [] then out
    else out.filter (fun r => c.typeFilter.contains r.ptype)
  let out := if c.condFilter = [] then out
    else out.filter (fun r => c.condFilter.contains r.condition)
  let out := match c.priceRange with
    | none => out
    | some pr => out.filter (fun r =>
        pyGe r.price (some pr.1) && pyLe r.price (some pr.2))
  let out := match c.sizeRange with
    | none => out
    | some sr => out.filter (fun r =>
        pyGe r.size (some sr.1) && pyLe r.size (some sr.2))
  let out := out.filter (fun r => pyGe r.matchScore (some c.minScore))
  let out := out.filter (fun r => pyGe r.g_budget (some c.minBudgetGate))
  out

/-- Completely empty criteria: no categorical sets, no ranges, both minimum
thresholds `0`. -/
def emptyCriteria : FilterCriteria := {}

/-! ## RankingEngine: search and truncation (lines 307–315)

`filtered["Property ID"].astype(str).str.contains(pat)` uses pandas
`str.contains` with its default `regex=True`, i.e. `re.search(pat, id)`.
The embedding models the regex fragment the identifiers exercise: a pattern
is a sequence of tokens, each either a literal character or the
any-character metacharacter `.`; patterns holding other regex
metacharacters are outside the model (theorems about literal patterns
exclude them by hypothesis). -/

/-- A regex pattern token: a literal character, or `.` (any character). -/
inductive RTok where
  | lit (c : Char)
  | dot
  deriving DecidableEq

/-- Compile one pattern character: `.` becomes the any-character token,
every other character a literal. -/
def compileChar (c : Char) : RTok :=
  if c = '.' then .dot else .lit c

/-- Compile a pattern string character by character. -/
def compilePat (s : String) : List RTok :=
  s.data.map compileChar

/-- Match a token pattern against a prefix of the text. -/
def rmatchHere : List RTok → List Char → Bool
  | [], _ => true
  | _ :: _, [] => false
  | t :: ts, c :: cs =>
    (match t with | .lit a => a = c | .dot => true) && rmatchHere ts cs

/-- `re.search`: match the pattern at some position of the text. -/
def rsearch (p : List RTok) : List Char → Bool
  | [] => rmatchHere p []
  | c :: cs => rmatchHere p (c :: cs) || rsearch p cs

/-- Plain substring test: does `p` occur contiguously in the text?
(The spec's reading of the search: exact, case-sensitive substring.) -/
def matchesHere : List Char → List Char → Bool
  | [], _ => true
  | _ :: _, [] => false
  | a :: as, c :: cs => a = c && matchesHere as cs

/-- `containsSub p s`: `p` is a contiguous substring of `s`. -/
def containsSub (p : List Char) : List Char → Bool
  | [] => matchesHere p []
  | c :: cs => matchesHere p (c :: cs) || containsSub p cs

/-- Characters the Python `re` module treats specially; a pattern without
them is matched purely literally. -/
def isRegexSpecial (c : Char) : Bool :=
  c ∈ (['.', '^', '$', '*', '+', '?', '[', ']', '\\', '|', '(', ')',
        Char.ofNat 123, Char.ofNat 125] : List Char)

/-- Python `str.strip()`: drop whitespace from both ends. -/
def pyStrip (s : String) : String :=
  String.mk (((s.data.dropWhile Char.isWhitespace).reverse.dropWhile
    Char.isWhitespace).reverse)

/-- The search step (lines 311–312): if the stripped search string is
non-empty, keep the records whose `Property ID` matches it under
`str.contains` (regex search); otherwise keep everything. -/
def searchStep (pat : String) (df : List MatchRecord) : List MatchRecord :=
  if pyStrip pat = "" then df
  else df.filter (fun r => rsearch (compilePat (pyStrip pat)) r.propertyId.data)

/-- The ranking tail of the pipeline (lines 307–315): the sort step (line
308), whose tie behavior lives in the sorting library and is passed in as
`sortFn`, then the Property-ID search, then `head(top_k)`. -/
def rankPipeline (sortFn : List MatchRecord → List MatchRecord)
    (pat : String) (k : Nat) (df : List MatchRecord) : List MatchRecord :=
  (searchStep pat (sortFn df)).take k

/-! ## Helper lemmas -/

theorem pyGe_none_left (y : PyFloat) : pyGe none y = false := by
  cases y <;> rfl

theorem pyLe_none_left (y : PyFloat) : pyLe none y = false := by
  cases y <;> rfl

/-- Every predicate the FilterEngine evaluates on a surviving record holds:
the two thresholds unconditionally, the ranges when configured. -/
theorem mem_apply_filters {df : List MatchRecord} {c : FilterCriteria}
    {r : MatchRecord} (h : r ∈ apply_filters df c) :
    pyGe r.matchScore (some c.minScore) = true ∧
    pyGe r.g_budget (some c.minBudgetGate) = true ∧
    (∀ pr, c.priceRange = some pr →
      (pyGe r.price (some pr.1) && pyLe r.price (some pr.2)) = true) ∧
    (∀ sr, c.sizeRange = some sr →
      (pyGe r.size (some sr.1) && pyLe r.size (some sr.2)) = true) := by
  unfold apply_filters at h
  obtain ⟨h, hg⟩ := List.mem_filter.mp h
  obtain ⟨h, hs⟩ := List.mem_filter.mp h
  refine ⟨hs, hg, ?_, ?_⟩
  · intro pr hpr
    rw [hpr] at h
    rcases hsz : c.sizeRange with _ | sr <;> rw [hsz] at h
    · exact (List.mem_filter.mp h).2
    · exact (List.mem_filter.mp (List.mem_filter.mp h).1).2
  · intro sr hsz
    rw [hsz] at h
    exact (List.mem_filter.mp h).2

/-! ## C1 — FilterEngine with empty criteria -/

/-- A record whose match score is NaN (and whose budget gate is fine). -/
def nanScoreRec : MatchRecord := { matchScore := none, g_budget := some 1 }

/-- Claim C1 as stated is false: with completely empty criteria the
FilterEngine still drops a record whose `MatchScore` is NaN (the
`MatchScore >= 0` threshold is applied unconditionally and NaN fails it),
so the input is not returned unchanged. -/
theorem claim_C1_counterexample :
    apply_filters [nanScoreRec] emptyCriteria = [] ∧
    apply_filters [nanScoreRec] emptyCriteria ≠ [nanScoreRec] := by
  decide

/-- C1 (amended): with completely empty criteria the FilterEngine retains
exactly the records whose `MatchScore` and `g_budget` are non-NaN and `>= 0`
(in particular it returns the input unchanged when every record satisfies
both), preserving order. -/
theorem claim_C1_amended (df : List MatchRecord) :
    apply_filters df emptyCriteria
      = df.filter (fun r => pyGe r.matchScore (some 0) && pyGe r.g_budget (some 0)) := by
  simp only [apply_filters, emptyCriteria, List.filter_filter]
  exact List.filter_congr fun r _ => Bool.and_comm ..

/-! ## C4 — NaN fails every configured threshold/range predicate -/

/-- C4: a record that survives the FilterEngine has non-NaN `MatchScore` and
`g_budget`, and non-NaN `Price`/`Size` whenever the respective range is
configured — equivalently, a NaN value is excluded whenever its predicate is
configured (fail closed). -/
theorem claim_C4 (df : List MatchRecord) (c : FilterCriteria) (r : MatchRecord)
    (h : r ∈ apply_filters df c) :
    r.matchScore ≠ none ∧ r.g_budget ≠ none ∧
    (c.priceRange ≠ none → r.price ≠ none) ∧
    (c.sizeRange ≠ none → r.size ≠ none) := by
  obtain ⟨hs, hg, hp, hsz⟩ := mem_apply_filters h
  refine ⟨?_, ?_, ?_, ?_⟩
  · intro hn; rw [hn, pyGe_none_left] at hs; exact Bool.noConfusion hs
  · intro hn; rw [hn, pyGe_none_left] at hg; exact Bool.noConfusion hg
  · intro hne hn
    obtain ⟨pr, hpr⟩ := Option.ne_none_iff_exists'.mp hne
    have := hp pr hpr
    rw [hn, pyGe_none_left, Bool.false_and] at this
    exact Bool.noConfusion this
  · intro hne hn
    obtain ⟨sr, hsr⟩ := Option.ne_none_iff_exists'.mp hne
    have := hsz sr hsr
    rw [hn, pyGe_none_left, Bool.false_and] at this
    exact Bool.noConfusion this

/-- A record inside both configured ranges with positive score and gate. -/
def inRangeRec : MatchRecord :=
  { price := some 5, size := some 5, matchScore := some 1, g_budget := some 1 }

/-- Criteria that configure both the price and the size range. -/
def rangedCriteria : FilterCriteria :=
  { priceRange := some (0, 10), sizeRange := some (0, 10) }

theorem claim_C4_witness :
    inRangeRec.matchScore ≠ none ∧ inRangeRec.g_budget ≠ none ∧
    (rangedCriteria.priceRange ≠ none → inRangeRec.price ≠ none) ∧
    (rangedCriteria.sizeRange ≠ none → inRangeRec.size ≠ none) :=
  claim_C4 [inRangeRec] rangedCriteria inRangeRec (by decide)

/-! ## C6 — clamp01 range and idempotence -/

/-- Claim C6 as stated is false at NaN: `float(nan)` does not raise, so
`safe_float` keeps NaN, `np.clip` propagates it, and `clamp01(nan)` is NaN —
not in `[0,1]` (both comparisons with the interval ends are false) — and
`clamp01(clamp01(nan)) == clamp01(nan)` is `nan == nan`, which is false. -/
theorem claim_C6_counterexample :
    clamp01 RawVal.nan = none ∧
    pyGe (clamp01 RawVal.nan) (some 0) = false ∧
    pyLe (clamp01 RawVal.nan) (some 1) = false ∧
    pyEq (clamp01 (floatToRaw (clamp01 RawVal.nan))) (clamp01 RawVal.nan) = false := by
  decide

/-- C6 (amended): for every input that is not the float NaN — finite numbers
and unparseable/non-numeric values alike — `clamp01(x)` is a finite value in
`[0,1]` and `clamp01(clamp01(x)) == clamp01(x)` holds; a NaN input instead
yields NaN. -/
theorem claim_C6_amended (x : RawVal) (h : x ≠ RawVal.nan) :
    (∃ q, clamp01 x = some q ∧ 0 ≤ q ∧ q ≤ 1) ∧
    pyEq (clamp01 (floatToRaw (clamp01 x))) (clamp01 x) = true := by
  cases x with
  | nan => exact absurd rfl h
  | unparseable s =>
    have h1 : clamp01 (RawVal.unparseable s) = some 0 := by
      simp [clamp01, safe_float]
    refine ⟨⟨0, h1, le_refl 0, zero_le_one⟩, ?_⟩
    rw [h1]
    decide
  | num q =>
    have h1 : clamp01 (RawVal.num q) = some (min (max q 0) 1) := rfl
    have h0 : (0 : ℚ) ≤ min (max q 0) 1 :=
      le_min (le_max_right q 0) zero_le_one
    have hle1 : min (max q 0) 1 ≤ 1 := min_le_right _ _
    refine ⟨⟨min (max q 0) 1, h1, h0, hle1⟩, ?_⟩
    rw [h1]
    have h2 : clamp01 (floatToRaw (some (min (max q 0) 1)))
        = some (min (max (min (max q 0) 1) 0) 1) := rfl
    rw [h2, max_eq_left h0, min_eq_left hle1]
    simp [pyEq]

theorem claim_C6_witness :
    (∃ q, clamp01 (RawVal.num 5) = some q ∧ 0 ≤ q ∧ q ≤ 1) ∧
    pyEq (clamp01 (floatToRaw (clamp01 (RawVal.num 5)))) (clamp01 (RawVal.num 5)) = true :=
  claim_C6_amended (RawVal.num 5) (by decide)

/-! ## C3 — Property-ID search -/

/-- On a pattern without regex metacharacters, matching the compiled pattern
at the head of the text is exactly the literal head match. -/
theorem rmatchHere_lit :
    ∀ (p s : List Char), (∀ c ∈ p, isRegexSpecial c = false) →
      rmatchHere (p.map compileChar) s = matchesHere p s := by
  intro p
  induction p with
  | nil => intro s _; cases s <;> rfl
  | cons a as ih =>
    intro s h
    have ha : a ≠ '.' := by
      intro he
      have := h a (List.mem_cons_self a as)
      rw [he] at this
      exact absurd this (by decide)
    cases s with
    | nil => rfl
    | cons c cs =>
      have hrec := ih cs (fun c hc => h c (List.mem_cons_of_mem a hc))
      simp only [List.map_cons, rmatchHere, matchesHere, compileChar, if_neg ha, hrec]

/-- On a pattern without regex metacharacters, `re.search` is exactly the
plain substring test. -/
theorem rsearch_lit (p : List Char) (h : ∀ c ∈ p, isRegexSpecial c = false) :
    ∀ s : List Char, rsearch (p.map compileChar) s = containsSub p s := by
  intro s
  induction s with
  | nil => simp only [rsearch, containsSub, rmatchHere_lit p [] h]
  | cons c cs ih =>
    simp only [rsearch, containsSub, rmatchHere_lit p (c :: cs) h, ih]

/-- A record whose identifier is `"101"`. -/
def rec101 : MatchRecord := { propertyId := "101" }

/-- Claim C3 as stated is false: the search string is regex-interpreted
(`str.contains` defaults to `regex=True`).  With search string `"1.1"` the
record `"101"` is retained (the `.` matches the `0`) although `"1.1"` is not
a substring of `"101"`, so the retained set is not the exact-substring set. -/
theorem claim_C3_counterexample :
    searchStep "1.1" [rec101] = [rec101] ∧
    containsSub "1.1".data "101".data = false := by
  decide

/-- C3 (amended): the retained records are those whose `propertyId` matches
the stripped search string as a regular expression; when the stripped search
string contains no regex metacharacter this coincides with case-sensitive
exact substring containment, and the search runs after the sort step and
before the top-K truncation. -/
theorem claim_C3_amended (sortFn : List MatchRecord → List MatchRecord)
    (df : List MatchRecord) (pat : String) (k : Nat)
    (h1 : ¬ pyStrip pat = "")
    (h2 : ∀ c ∈ (pyStrip pat).data, isRegexSpecial c = false) :
    rankPipeline sortFn pat k df
      = ((sortFn df).filter
          (fun r => containsSub (pyStrip pat).data r.propertyId.data)).take k := by
  unfold rankPipeline searchStep
  rw [if_neg h1]
  congr 1
  exact List.filter_congr fun r _ => rsearch_lit (pyStrip pat).data h2 r.propertyId.data

/-- A record whose identifier is `"202"`. -/
def rec202 : MatchRecord := { propertyId := "202" }

/-- A record whose identifier is `"310"`. -/
def rec310 : MatchRecord := { propertyId := "310" }

/-- The spec's concrete scenario: ids `["101","202","310"]`, search `"10"`,
result `["101","310"]`. -/
theorem claim_C3_witness :
    rankPipeline id "10" 10 [rec101, rec202, rec310] = [rec101, rec310] :=
  (claim_C3_amended id [rec101, rec202, rec310] "10" 10 (by decide)
    (by decide)).trans (by decide)

/-! ## Permutation facts about the contribution sort -/

theorem insertDesc_perm (x : String × PyFloat) (l : List (String × PyFloat)) :
    (insertDesc x l).Perm (x :: l) := by
  induction l with
  | nil => exact List.Perm.refl _
  | cons y ys ih =>
    unfold insertDesc
    by_cases h : pyGt y.2 x.2 = true
    · rw [if_pos h]
      exact (ih.cons y).trans (List.Perm.swap x y ys)
    · rw [if_neg h]

theorem insertionSortDesc_perm (l : List (String × PyFloat)) :
    (insertionSortDesc l).Perm l := by
  induction l with
  | nil => exact List.Perm.refl _
  | cons x xs ih =>
    exact (insertDesc_perm x (insertionSortDesc xs)).trans (ih.cons x)

theorem sortContribs_perm (l : List (String × PyFloat)) :
    (sortContribs l).Perm l := by
  unfold sortContribs
  exact ((insertionSortDesc_perm _).append_right _).trans
    (List.filter_append_perm (fun p => (p.2).isSome) l)

/-! ## Evaluating the defensive clamp on typical cells -/

theorem clampSim_missing (row : RawRow) (c : Comp) (h : simCell row c = none) :
    clampSim row c = some (1/2) := by
  simp only [clampSim, simEff, h, Option.getD, clamp01, safe_float, Option.map]
  norm_num

theorem clampSim_unparseable (row : RawRow) (c : Comp) (s : String)
    (h : simCell row c = some (RawVal.unparseable s)) :
    clampSim row c = some 0 := by
  simp only [clampSim, simEff, h, Option.getD, clamp01, safe_float, Option.map]
  norm_num

/-! ## C10 — present-but-unparseable similarity clamps to 0.0, not 0.5 -/

/-- C10: a similarity cell that is present but unparseable is clamped to
`0.0` (the parse-failure default of `safe_float` inside `clamp01`), so its
weighted contribution is `0` and its component counts as weak (`<= 0.35`);
a missing cell instead defaults to the neutral `0.5`. -/
theorem claim_C10 (row : RawRow) (c : Comp) :
    (∀ s, simCell row c = some (RawVal.unparseable s) →
      clampSim row c = some 0 ∧
      (compName c, (some 0 : PyFloat)) ∈ compute_weighted_contributions row ∧
      compLabel c ∈ weakLabels row) ∧
    (simCell row c = none → clampSim row c = some (1/2)) := by
  have hcmem : c ∈ canonComps := by cases c <;> decide
  refine ⟨?_, clampSim_missing row c⟩
  intro s hs
  have hz : clampSim row c = some 0 := clampSim_unparseable row c s hs
  refine ⟨hz, ?_, ?_⟩
  · have hmem : (compName c, pyScale (W c) (clampSim row c)) ∈ contributionParts row :=
      List.mem_map_of_mem _ hcmem
    rw [hz] at hmem
    have hval : pyScale (W c) (some 0) = (some 0 : PyFloat) := by
      simp [pyScale]
    rw [hval] at hmem
    exact ((sortContribs_perm (contributionParts row)).mem_iff).mpr hmem
  · have hpred : pyLe (clampSim row c) (some (35/100)) = true := by
      rw [hz]
      simp only [pyLe, decide_eq_true_eq]
      norm_num
    exact List.mem_map_of_mem _ (List.mem_filter.mpr ⟨hcmem, hpred⟩)

/-- A raw row whose `s_bed` cell is present but not parseable. -/
def unparsableRow : RawRow := { s_bed := some (RawVal.unparseable "N/A") }

theorem claim_C10_witness :
    clampSim unparsableRow Comp.bed = some 0 ∧
    ("bed", (some 0 : PyFloat)) ∈ compute_weighted_contributions unparsableRow ∧
    compLabel Comp.bed ∈ weakLabels unparsableRow :=
  (claim_C10 unparsableRow Comp.bed).1 "N/A" rfl

/-! ## C7 — clause budget of the ReasonGenerator -/

/-- The `bullets` list, written with the branch explicit. -/
theorem bullets_eq (row : RawRow) :
    bullets row =
      if weakLabels row ≠ [] ∧
          ((budgetClause row).toList ++ (strongClause row).toList).length < 2 then
        ((budgetClause row).toList ++ (strongClause row).toList)
          ++ ["trade-offs: " ++ String.intercalate ", " ((weakLabels row).take 2)]
      else (budgetClause row).toList ++ (strongClause row).toList := rfl

/-- C7: the ReasonGenerator emits at most 3 clauses, the trade-offs clause is
appended only when fewer than 2 clauses exist so far, and when the budget
clause and the strong-components clause are both present the output is
exactly those two clauses (no trade-offs clause). -/
theorem claim_C7 (row : RawRow) :
    (bullets row).length ≤ 3 ∧
    (((budgetClause row).toList ++ (strongClause row).toList).length ≥ 2 →
      bullets row = (budgetClause row).toList ++ (strongClause row).toList) ∧
    (∀ b s, budgetClause row = some b → strongClause row = some s →
      bullets row = [b, s]) := by
  have hb : (budgetClause row).toList.length ≤ 1 := by
    cases budgetClause row <;> simp
  have hs : (strongClause row).toList.length ≤ 1 := by
    cases strongClause row <;> simp
  rw [bullets_eq]
  by_cases hc : weakLabels row ≠ [] ∧
      ((budgetClause row).toList ++ (strongClause row).toList).length < 2
  · rw [if_pos hc]
    have hlt := hc.2
    rw [List.length_append] at hlt
    refine ⟨?_, ?_, ?_⟩
    · simp only [List.length_append, List.length_cons, List.length_nil]
      omega
    · intro h2
      rw [List.length_append] at h2
      omega
    · intro b s hb2 hs2
      rw [hb2, hs2] at hlt
      simp at hlt
  · rw [if_neg hc]
    refine ⟨by rw [List.length_append]; omega, fun _ => rfl, ?_⟩
    intro b s hb2 hs2
    rw [hb2, hs2]
    rfl

/-- A row with a within-budget gate and one strong component. -/
def reasonRow : RawRow := { g_budget := some (RawVal.num 1), s_price := some (RawVal.num 1) }

theorem reasonRow_budget : budgetClause reasonRow = some "within budget" := by
  simp only [budgetClause, gBudgetFloat, reasonRow, Option.getD, safe_float]
  norm_num

theorem reasonRow_strong : strongClause reasonRow = some "strong on: price fit" := by
  have h : strongLabels reasonRow = ["price fit"] := by
    simp only [strongLabels, canonComps, clampSim, simEff, simCell, reasonRow,
      Option.getD, clamp01, safe_float, Option.map, pyGe, pyLe, List.filter,
      decide_eq_true_eq, min_def, max_def]
    norm_num
    rfl
  rw [strongClause, h]
  rfl

theorem claim_C7_witness :
    (bullets reasonRow).length ≤ 3 ∧
    bullets reasonRow = ["within budget", "strong on: price fit"] :=
  ⟨(claim_C7 reasonRow).1,
    (claim_C7 reasonRow).2.2 _ _ reasonRow_budget reasonRow_strong⟩

/-! ## C8 — the budget clause and the fallback -/

/-- C8: the budget clause is `"within budget"` for `g >= 0.98`,
`"slightly above budget (small penalty)"` for `0.85 <= g < 0.98`,
`"over budget (strong penalty)"` for `g < 0.85`; it is omitted exactly when
the budget gate is NaN; and when no clause at all is produced the result is
the fixed fallback sentence. -/
theorem claim_C8 (row : RawRow) :
    (budgetClause row = none ↔ gBudgetFloat row = none) ∧
    (∀ g, gBudgetFloat row = some g →
      ((98/100 : ℚ) ≤ g → budgetClause row = some "within budget") ∧
      (g < 98/100 → (85/100 : ℚ) ≤ g →
        budgetClause row = some "slightly above budget (small penalty)") ∧
      (g < 85/100 → budgetClause row = some "over budget (strong penalty)")) ∧
    (bullets row = [] →
      generate_reason row = "Balanced match across constraints and preferences.") := by
  refine ⟨?_, ?_, ?_⟩
  · cases hg : gBudgetFloat row with
    | none => simp [budgetClause, hg]
    | some g =>
      simp only [budgetClause, hg]
      constructor
      · intro h
        split_ifs at h
      · intro h
        exact Option.noConfusion h
  · intro g hg
    simp only [budgetClause, hg]
    refine ⟨fun h1 => by rw [if_pos h1], fun h1 h2 => ?_, fun h1 => ?_⟩
    · rw [if_neg (not_le.mpr h1), if_pos h2]
    · rw [if_neg (not_le.mpr (h1.trans (by norm_num))), if_neg (not_le.mpr h1)]
  · intro h
    rw [generate_reason, if_pos h]

/-- A row whose budget gate is slightly above budget. -/
def slightRow : RawRow := { g_budget := some (RawVal.num (9/10)) }

theorem claim_C8_witness :
    budgetClause slightRow = some "slightly above budget (small penalty)" :=
  ((claim_C8 slightRow).2.1 (9/10) rfl).2.1 (by norm_num) (by norm_num)

/-! ## C5 — the contribution list is sorted descending with canonical ties -/

/-- The order the output of the ContributionCalculator satisfies between a
pair in list order: comparable (non-NaN) values never increase, entries with
equal values keep the canonical component order, and a NaN value is never
followed by a non-NaN one. -/
def contribRel (p q : String × PyFloat) : Prop :=
  (∀ a b, p.2 = some a → q.2 = some b → b ≤ a) ∧
  (p.2 = q.2 → canonIdx p.1 < canonIdx q.1) ∧
  (p.2 = none → q.2 = none)

theorem pyGt_true_lt {a b : ℚ} (h : pyGt (some a) (some b) = true) : b < a := by
  simpa [pyGt] using h

theorem pyGt_false_le {a b : ℚ} (h : ¬ pyGt (some a) (some b) = true) : a ≤ b := by
  simp only [pyGt, decide_eq_true_eq] at h
  exact not_lt.mp h

/-- Inserting an element whose value is comparable, behind all canonically
earlier elements, preserves the output order. -/
theorem insertDesc_pairwise (x : String × PyFloat) (l : List (String × PyFloat))
    (hl : l.Pairwise contribRel)
    (hx : (x.2).isSome = true)
    (hall : ∀ y ∈ l, (y.2).isSome = true)
    (hcanon : ∀ y ∈ l, canonIdx x.1 < canonIdx y.1) :
    (insertDesc x l).Pairwise contribRel := by
  induction l with
  | nil => exact List.pairwise_singleton _ _
  | cons y ys ih =>
    rw [List.pairwise_cons] at hl
    obtain ⟨hy, hys⟩ := hl
    obtain ⟨b, hb⟩ := Option.isSome_iff_exists.mp hx
    obtain ⟨a, ha⟩ := Option.isSome_iff_exists.mp (hall y (List.mem_cons_self y ys))
    unfold insertDesc
    by_cases h : pyGt y.2 x.2 = true
    · rw [if_pos h]
      rw [ha, hb] at h
      have hba : b < a := pyGt_true_lt h
      rw [List.pairwise_cons]
      constructor
      · intro z hz
        rcases List.mem_cons.mp ((insertDesc_perm x ys).mem_iff.mp hz) with rfl | hz'
        · refine ⟨?_, ?_, ?_⟩
          · intro v w hv hw
            rw [ha] at hv; rw [hb] at hw
            cases hv; cases hw
            exact hba.le
          · intro he
            rw [ha, hb] at he
            injection he with hab
            rw [hab] at hba
            exact absurd hba (lt_irrefl b)
          · intro he
            rw [ha] at he
            exact Option.noConfusion he
        · exact hy z hz'
      · exact ih hys (fun z hz => hall z (List.mem_cons_of_mem _ hz))
          (fun z hz => hcanon z (List.mem_cons_of_mem _ hz))
    · rw [if_neg h]
      rw [List.pairwise_cons]
      constructor
      · intro z hz
        have hab : a ≤ b := by
          rw [ha, hb] at h
          exact pyGt_false_le h
        rcases List.mem_cons.mp hz with rfl | hz'
        · refine ⟨?_, ?_, ?_⟩
          · intro v w hv hw
            rw [hb] at hv; rw [ha] at hw
            cases hv; cases hw
            exact hab
          · intro _
            exact hcanon z (List.mem_cons_self z ys)
          · intro he
            rw [hb] at he
            exact Option.noConfusion he
        · obtain ⟨c, hcv⟩ := Option.isSome_iff_exists.mp
            (hall z (List.mem_cons_of_mem _ hz'))
          have hca : c ≤ a := (hy z hz').1 a c ha hcv
          refine ⟨?_, ?_, ?_⟩
          · intro v w hv hw
            rw [hb] at hv; rw [hcv] at hw
            cases hv; cases hw
            exact hca.trans hab
          · intro _
            exact hcanon z (List.mem_cons_of_mem _ hz')
          · intro he
            rw [hb] at he
            exact Option.noConfusion he
      · rw [List.pairwise_cons]
        exact ⟨hy, hys⟩

/-- The stable descending insertion sort of a list of comparable entries
listed in canonical order satisfies the output order. -/
theorem insertionSortDesc_pairwise (l : List (String × PyFloat))
    (hall : ∀ y ∈ l, (y.2).isSome = true)
    (hcanon : l.Pairwise (fun p q => canonIdx p.1 < canonIdx q.1)) :
    (insertionSortDesc l).Pairwise contribRel := by
  induction l with
  | nil => exact List.Pairwise.nil
  | cons x xs ih =>
    rw [List.pairwise_cons] at hcanon
    obtain ⟨hx1, hxs⟩ := hcanon
    refine insertDesc_pairwise x (insertionSortDesc xs)
      (ih (fun y hy => hall y (List.mem_cons_of_mem _ hy)) hxs)
      (hall x (List.mem_cons_self x xs)) ?_ ?_
    · intro y hy
      exact hall y (List.mem_cons_of_mem _ ((insertionSortDesc_perm xs).mem_iff.mp hy))
    · intro y hy
      exact hx1 y ((insertionSortDesc_perm xs).mem_iff.mp hy)

/-- The `parts` dict lists its keys in strictly increasing canonical order. -/
theorem contributionParts_canon (row : RawRow) :
    (contributionParts row).Pairwise (fun p q => canonIdx p.1 < canonIdx q.1) := by
  unfold contributionParts
  rw [List.pairwise_map]
  have h : List.Pairwise
      (fun a b : Comp => canonIdx (compName a) < canonIdx (compName b)) canonComps := by
    decide
  exact h.imp (fun hab => hab)

/-- An entry of the NaN part of the split has value NaN. -/
theorem value_none_of_mem_nanpart {l : List (String × PyFloat)}
    {b : String × PyFloat} (hb : b ∈ l.filter (fun p => !(p.2).isSome)) :
    b.2 = none := by
  have h := (List.mem_filter.mp hb).2
  cases hb2 : b.2 with
  | none => rfl
  | some v => rw [hb2] at h; simp at h

/-- C5: for every record the ContributionCalculator's output is ordered —
comparable contribution values are non-increasing, equal values keep the
fixed canonical component order (so the output is deterministic), NaN values
sit at the end — and it is a permutation of the canonical
`(component, weight × clamped similarity)` pairs. -/
theorem claim_C5 (row : RawRow) :
    (compute_weighted_contributions row).Pairwise contribRel ∧
    (compute_weighted_contributions row).Perm (contributionParts row) := by
  refine ⟨?_, sortContribs_perm _⟩
  unfold compute_weighted_contributions sortContribs
  rw [List.pairwise_append]
  refine ⟨?_, ?_, ?_⟩
  · refine insertionSortDesc_pairwise _ ?_ ((contributionParts_canon row).filter _)
    intro y hy
    exact (List.mem_filter.mp hy).2
  · refine ((contributionParts_canon row).filter _).imp_of_mem ?_
    intro a b ha hb hab
    have hnb : b.2 = none := value_none_of_mem_nanpart hb
    refine ⟨?_, fun _ => hab, fun _ => hnb⟩
    intro v w hv hw
    rw [hnb] at hw
    exact Option.noConfusion hw
  · intro a ha b hb
    have hsa : (a.2).isSome = true :=
      (List.mem_filter.mp ((insertionSortDesc_perm _).mem_iff.mp ha)).2
    have hnb : b.2 = none := value_none_of_mem_nanpart hb
    refine ⟨?_, ?_, ?_⟩
    · intro v w hv hw
      rw [hnb] at hw
      exact Option.noConfusion hw
    · intro he
      rw [hnb] at he
      rw [he] at hsa
      simp at hsa
    · intro he
      rw [he] at hsa
      simp at hsa

/-! ## C9 — contribution bounds -/

/-- The clamp of anything but a float NaN is a finite value in `[0,1]`. -/
theorem clamp01_bounds (x : RawVal) (h : x ≠ RawVal.nan) :
    ∃ q, clamp01 x = some q ∧ 0 ≤ q ∧ q ≤ 1 := by
  cases x with
  | nan => exact absurd rfl h
  | unparseable s =>
    refine ⟨0, ?_, le_refl 0, zero_le_one⟩
    simp [clamp01, safe_float]
  | num q =>
    exact ⟨min (max q 0) 1, rfl, le_min (le_max_right q 0) zero_le_one,
      min_le_right _ _⟩

theorem Wname_compName (c : Comp) : Wname (compName c) = W c := by
  cases c <;> rfl

theorem W_nonneg (c : Comp) : 0 ≤ W c := by
  cases c <;> norm_num [W]

/-- Folding Python float addition over bounded finite values stays below the
sum of the bounds. -/
theorem pySum_foldl_le (f : String → ℚ) :
    ∀ (l : List (String × PyFloat)) (acc : ℚ),
      (∀ p ∈ l, ∃ v, p.2 = some v ∧ v ≤ f p.1) →
      ∃ s, List.foldl pyAdd (some acc) (l.map Prod.snd) = some s ∧
        s ≤ acc + (l.map (fun p => f p.1)).sum := by
  intro l
  induction l with
  | nil =>
    intro acc _
    exact ⟨acc, rfl, by simp⟩
  | cons p ps ih =>
    intro acc hb
    obtain ⟨v, hv, hvle⟩ := hb p (List.mem_cons_self p ps)
    simp only [List.map_cons, List.foldl_cons, List.sum_cons]
    rw [hv]
    obtain ⟨s, hs, hsle⟩ := ih (acc + v) (fun q hq => hb q (List.mem_cons_of_mem p hq))
    refine ⟨s, hs, ?_⟩
    calc s ≤ (acc + v) + (ps.map (fun p => f p.1)).sum := hsle
      _ ≤ acc + (f p.1 + (ps.map (fun p => f p.1)).sum) := by linarith

/-- Every entry of the parts list of a NaN-free row is a finite value bounded
by its component's weight. -/
theorem contributionParts_bounded (row : RawRow)
    (h : ∀ c ∈ canonComps, simEff row c ≠ RawVal.nan) :
    ∀ p ∈ contributionParts row, ∃ v, p.2 = some v ∧ v ≤ Wname p.1 := by
  intro p hp
  unfold contributionParts at hp
  obtain ⟨c, hc, rfl⟩ := List.mem_map.mp hp
  obtain ⟨q, hq, hq0, hq1⟩ := clamp01_bounds (simEff row c) (h c hc)
  refine ⟨W c * q, ?_, ?_⟩
  · show pyScale (W c) (clampSim row c) = some (W c * q)
    rw [clampSim, hq]
    rfl
  · show W c * q ≤ Wname (compName c)
    rw [Wname_compName]
    exact mul_le_of_le_one_right (W_nonneg c) hq1

/-- A raw row whose eight similarity cells are all present and NaN. -/
def allNanRow : RawRow :=
  { s_price := some RawVal.nan, s_bed := some RawVal.nan,
    s_bath := some RawVal.nan, s_type := some RawVal.nan,
    s_cond := some RawVal.nan, s_year := some RawVal.nan,
    s_size := some RawVal.nan, s_loc := some RawVal.nan }

/-- Claim C9 as stated is false for NaN similarity values: a NaN cell gives a
NaN contribution, the Python sum of the contributions is then NaN, and a NaN
neither satisfies `<= sum(weights)` nor `<= weight[name]`. -/
theorem claim_C9_counterexample :
    pyLe (pySum ((compute_weighted_contributions allNanRow).map Prod.snd))
        (some ((canonComps.map W).sum)) = false ∧
    ("price", (none : PyFloat)) ∈ compute_weighted_contributions allNanRow ∧
    pyLe (none : PyFloat) (some (W Comp.price)) = false := by
  refine ⟨?_, ?_, rfl⟩ <;> decide

/-- C9 (amended): for every record none of whose similarity cells holds a
float NaN (finite, missing and unparseable cells are all allowed), every
contribution value is finite and at most the weight of its component, and
the sum of the contribution values is finite and at most the sum of the
eight weights; a NaN similarity cell instead makes its contribution and the
sum NaN, which satisfies neither `<=`. -/
theorem claim_C9_amended (row : RawRow)
    (h : ∀ c ∈ canonComps, simEff row c ≠ RawVal.nan) :
    (∀ p ∈ compute_weighted_contributions row,
      ∃ v, p.2 = some v ∧ v ≤ Wname p.1) ∧
    (∃ s, pySum ((compute_weighted_contributions row).map Prod.snd) = some s ∧
      s ≤ (canonComps.map W).sum) := by
  have hperm : (compute_weighted_contributions row).Perm (contributionParts row) :=
    sortContribs_perm _
  have hbound := contributionParts_bounded row h
  have hbound' : ∀ p ∈ compute_weighted_contributions row,
      ∃ v, p.2 = some v ∧ v ≤ Wname p.1 :=
    fun p hp => hbound p (hperm.mem_iff.mp hp)
  refine ⟨hbound', ?_⟩
  obtain ⟨s, hs, hsle⟩ := pySum_foldl_le Wname (compute_weighted_contributions row) 0 hbound'
  refine ⟨s, hs, ?_⟩
  have hsum : ((compute_weighted_contributions row).map (fun p => Wname p.1)).sum
      = (canonComps.map W).sum := by
    rw [(hperm.map (fun p => Wname p.1)).sum_eq]
    unfold contributionParts
    rw [List.map_map]
    exact congrArg List.sum (List.map_congr_left (fun c _ => Wname_compName c))
  rw [hsum, zero_add] at hsle
  exact hsle

theorem claim_C9_witness :
    (∀ p ∈ compute_weighted_contributions ({} : RawRow),
      ∃ v, p.2 = some v ∧ v ≤ Wname p.1) ∧
    (∃ s, pySum ((compute_weighted_contributions ({} : RawRow)).map Prod.snd) = some s ∧
      s ≤ (canonComps.map W).sum) :=
  claim_C9_amended {} (by decide)

end PropMatch
